import Mathlib

/-!
Verification of the gmqtt broker (lupc/gmqtt) against its natural-language
specification.  The repository sources available are `config/config.go` and
`cmd/gmqtt/main.go`; those are embedded directly.  The broker core (topic
matcher, QoS flow, session store, retained store) is described only by the
specification, and the corresponding definitions are modelled from the
specification's words, as marked in their doc comments.
-/

namespace Gmqtt

/- ----------------------------------------------------------------
   Embedding of config/config.go
   ---------------------------------------------------------------- -/

/-- LogConfig from config.go: log level, format, and packet-dump flag. -/
structure LogConfig where
  level : String
  format : String
  dumpPacket : Bool
  deriving DecidableEq, Repr

/-- Embedding of Go `func (l LogConfig) Validate() error`: the level must be
one of debug/info/warn/error and the format json or text.  `none` models a
nil error. -/
def LogConfig.Validate (l : LogConfig) : Option String :=
  if l.level ≠ "debug" ∧ l.level ≠ "info" ∧ l.level ≠ "warn" ∧ l.level ≠ "error" then
    some ("invalid log level: " ++ l.level)
  else if l.format ≠ "json" ∧ l.format ≠ "text" then
    some ("invalid log format: " ++ l.format)
  else
    none

/-- TLSOptions from config.go. -/
structure TLSOptions where
  cacert : String
  cert : String
  key : String
  verify : Bool
  deriving DecidableEq, Repr

/-- WebsocketOptions from config.go. -/
structure WebsocketOptions where
  path : String
  deriving DecidableEq, Repr

/-- ListenerConfig from config.go: address plus optional TLS and websocket
options (Go nil pointers become `Option`). -/
structure ListenerConfig where
  address : String
  tls : Option TLSOptions
  websocket : Option WebsocketOptions
  deriving DecidableEq, Repr

/-- DefaultListeners from config.go: a plain TCP listener on 0.0.0.0:1883 and
a websocket listener on 0.0.0.0:8883 with path "/". -/
def DefaultListeners : List ListenerConfig :=
  [ { address := "0.0.0.0:1883", tls := none, websocket := none },
    { address := "0.0.0.0:8883", tls := none, websocket := some { path := "/" } } ]

/-- Abstraction of the API / MQTT / Persistence sub-configurations, whose
struct definitions live in files outside the provided sources; the claims only
depend on the outcome of their `Validate` methods, kept here as a field
(`none` models a nil error). -/
structure ExternalConf where
  validateErr : Option String
  deriving DecidableEq, Repr

/-- Modelled from the spec: `DefaultAPI`, declared outside the provided
sources; an external sub-configuration whose default validates cleanly. -/
def DefaultAPI : ExternalConf := { validateErr := none }

/-- Modelled from the spec: `DefaultMQTTConfig`, declared outside the provided
sources. -/
def DefaultMQTTConfig : ExternalConf := { validateErr := none }

/-- Modelled from the spec: `DefaultPersistenceConfig`, declared outside the
provided sources. -/
def DefaultPersistenceConfig : ExternalConf := { validateErr := none }

/-- Modelled from the spec: `DefaultTopicAliasManager`, declared outside the
provided sources; `Config.Validate` never inspects it. -/
def DefaultTopicAliasManager : ExternalConf := { validateErr := none }

/-- A plugin `Configuration` value (the Go interface): identified by a tag and
carrying the outcome of its `Validate` method. -/
structure PluginConf where
  tag : String
  validateErr : Option String
  deriving DecidableEq, Repr

/-- The package-level `defaultPluginConfig` map, keyed by plugin name.  The Go
map is modelled as an association list whose lookup is `List.lookup`. -/
abbrev Registry := List (String × PluginConf)

/-- Embedding of `RegisterDefaultPluginConfig`: registering a name that is
already present panics (modelled as `Except.error` carrying the Go panic
message); otherwise the config is recorded in the map. -/
def RegisterDefaultPluginConfig (reg : Registry) (name : String) (config : PluginConf) :
    Except String Registry :=
  if (reg.lookup name).isSome then
    Except.error ("duplicated default config for " ++ name ++ " plugin")
  else
    Except.ok ((name, config) :: reg)

/-- Sequential registration of several default plugin configurations, as the
plugin packages' init functions perform one after another at program start;
the sequence stops at the first panic. -/
def registerMany (reg : Registry) : List (String × PluginConf) → Except String Registry
  | [] => Except.ok reg
  | (n, c) :: rest =>
    match RegisterDefaultPluginConfig reg n c with
    | Except.error e => Except.error e
    | Except.ok reg2 => registerMany reg2 rest

/-- Config from config.go, with the externally-defined sub-configurations
abstracted as `ExternalConf` and the plugin map as an association list. -/
structure Config where
  listeners : List ListenerConfig
  api : ExternalConf
  mqtt : ExternalConf
  grpcEndpoint : String
  log : LogConfig
  pidFile : String
  configDir : String
  plugins : Registry
  pluginOrder : List String
  persistence : ExternalConf
  topicAliasManager : ExternalConf
  deriving DecidableEq, Repr

/-- Embedding of `DefaultConfig()`: defaults for listeners, MQTT, API, log
(info/text), persistence and topic-alias manager; the plugin map is a copy of
the `defaultPluginConfig` registry; every other field keeps its Go zero
value. -/
def DefaultConfig (reg : Registry) : Config :=
  { listeners := DefaultListeners
    api := DefaultAPI
    mqtt := DefaultMQTTConfig
    grpcEndpoint := ""
    log := { level := "info", format := "text", dumpPacket := false }
    pidFile := ""
    configDir := ""
    plugins := reg
    pluginOrder := []
    persistence := DefaultPersistenceConfig
    topicAliasManager := DefaultTopicAliasManager }

/-- The zero value `Config{}` that `ParseConfig` returns when validation
fails: every field at its Go zero value (the abstract sub-configurations carry
a nil validation error). -/
def zeroConfig : Config :=
  { listeners := []
    api := { validateErr := none }
    mqtt := { validateErr := none }
    grpcEndpoint := ""
    log := { level := "", format := "", dumpPacket := false }
    pidFile := ""
    configDir := ""
    plugins := []
    pluginOrder := []
    persistence := { validateErr := none }
    topicAliasManager := { validateErr := none } }

/-- Validation outcome of the plugin map: Go ranges over the map and returns
the first plugin validation error; modelled as the first error in the list. -/
def pluginsValidate (ps : Registry) : Option String :=
  ps.findSome? (fun p => p.2.validateErr)

/-- Embedding of `func (c Config) Validate() (err error)`: validates Log, API,
MQTT and Persistence in that order, then every plugin, returning the first
error. -/
def Config.Validate (c : Config) : Option String :=
  match c.log.Validate with
  | some e => some e
  | none =>
    match c.api.validateErr with
    | some e => some e
    | none =>
      match c.mqtt.validateErr with
      | some e => some e
      | none =>
        match c.persistence.validateErr with
        | some e => some e
        | none => pluginsValidate c.plugins

/-- Side effects performed by `ParseConfig`, recorded to state that the
empty-path fast path touches neither the filesystem nor `Validate`. -/
inductive ParseEffect
  | readFile (path : String)
  | unmarshal
  | validate
  deriving DecidableEq, Repr

/-- Embedding of `ParseConfig(filePath string) (c Config, err error)`.
External collaborators are parameters: `readFile` models `ioutil.ReadFile`
(file contents are opaque strings), `unmarshal` models `yaml.Unmarshal` into
the default-initialised config (it may mutate the config in place and still
fail, as the Go API allows), and `pathDir` models `path.Dir`.  The result is
the `(Config, error)` pair returned by Go together with the list of effects
performed.  An empty path returns `DefaultConfig()` immediately; a read error
returns the still-zero named return `c`; an unmarshal error returns the
possibly partially-filled config; a validation error returns `Config{}`. -/
def ParseConfig (reg : Registry) (readFile : String → Except String String)
    (unmarshal : String → Config → Config × Option String)
    (pathDir : String → String) (filePath : String) :
    (Config × Option String) × List ParseEffect :=
  if filePath = "" then
    ((DefaultConfig reg, none), [])
  else
    match readFile filePath with
    | Except.error e => ((zeroConfig, some e), [ParseEffect.readFile filePath])
    | Except.ok b =>
      let c0 := DefaultConfig reg
      let (c1, uerr) := unmarshal b c0
      match uerr with
      | some e => ((c1, some e), [ParseEffect.readFile filePath, ParseEffect.unmarshal])
      | none =>
        let c2 := { c1 with configDir := pathDir filePath }
        match c2.Validate with
        | some e =>
          ((zeroConfig, some e),
            [ParseEffect.readFile filePath, ParseEffect.unmarshal, ParseEffect.validate])
        | none =>
          ((c2, none),
            [ParseEffect.readFile filePath, ParseEffect.unmarshal, ParseEffect.validate])

/- ----------------------------------------------------------------
   Embedding of cmd/gmqtt/main.go run()
   ---------------------------------------------------------------- -/

/-- Outcome of the broker process startup: either `os.Exit` with a code, or
the broker keeps running. -/
inductive RunOutcome
  | exited (code : Nat)
  | running
  deriving DecidableEq, Repr

/-- Embedding of `must(err)`: a non-nil error terminates the process with
exit code 1 (`true` means the process exits). -/
def must (err : Option String) : Bool :=
  err.isSome

/-- Outcomes of the externally-performed steps of `run()`: the pid-file
creation, listener/TLS setup (`GetListeners`), logger construction
(`GetLogger`), and the server `Init` and `Run` calls.  Each is the error the
step would return. -/
structure RunEnv where
  pidErr : Option String
  listenersErr : Option String
  loggerErr : Option String
  initErr : Option String
  runErr : Option String
  deriving DecidableEq, Repr

/-- Embedding of `run()` from cmd/gmqtt/main.go, taking the `(Config, error)`
pair produced by `config.ParseConfig(ConfigFile)` and the outcomes of the
later steps.  Both branches of the `os.IsNotExist` test call `must(err)`, so
any parse error exits; a pid-file error (when a pid file is configured), a
listener error, a logger error, and `s.Init()` / `s.Run()` errors each
terminate the process with exit code 1. -/
def run (parse : Config × Option String) (env : RunEnv) : RunOutcome :=
  if must parse.2 then RunOutcome.exited 1
  else
    let c := parse.1
    if c.pidFile ≠ "" ∧ must env.pidErr then RunOutcome.exited 1
    else if must env.listenersErr then RunOutcome.exited 1
    else if must env.loggerErr then RunOutcome.exited 1
    else if env.initErr.isSome then RunOutcome.exited 1
    else if env.runErr.isSome then RunOutcome.exited 1
    else RunOutcome.running

/- ----------------------------------------------------------------
   Topic Matcher (spec section 4.1)
   ---------------------------------------------------------------- -/

/-- Modelled from the spec: a literal filter level may not contain the
wildcard characters `#` (code 35) or `+` (code 43) — a misplaced wildcard
makes the filter malformed. -/
def cleanSegment (f : String) : Bool :=
  !(f.data.contains (Char.ofNat 35)) && !(f.data.contains (Char.ofNat 43))

/-- Modelled from the spec: topic filters are lists of topic-level segments.
Malformed filters are rejected at subscribe time: `#` is valid only as the
final filter level, and any other level is either `+` or a literal without
wildcard characters. -/
def validFilter : List String → Bool
  | [] => true
  | f :: fs =>
    if f = "#" ∧ fs = [] then true
    else (f == "+" || cleanSegment f) && validFilter fs

/-- Modelled from the spec: the matching walk of the Topic Matcher.  Matching
walks literal, `+` (exactly one segment) and `#` (zero or more trailing
segments) branches over the topic's segments. -/
def walkMatch : List String → List String → Bool
  | [], [] => true
  | [], _ :: _ => false
  | f :: fs, ts =>
    if f = "#" ∧ fs = [] then true
    else
      match ts with
      | [] => false
      | t :: ts2 => (f == "+" || f == t) && walkMatch fs ts2

/-- Modelled from the spec: a topic whose first segment starts with `$` is a
system topic. -/
def topicIsSys : List String → Bool
  | [] => false
  | t :: _ => t.startsWith "$"

/-- Modelled from the spec: a filter matches a topic when the walk succeeds,
except that topics whose first segment starts with `$` are excluded from
filters beginning with `+` or `#`. -/
def matchTopic (filter topic : List String) : Bool :=
  if (filter.head? == some "#" || filter.head? == some "+") && topicIsSys topic then false
  else walkMatch filter topic

/-- Modelled from the spec: the Topic Matcher's registered subscriptions,
as (clientID, filter) pairs. -/
abbrev Matcher := List (String × List String)

/-- Modelled from the spec: `register(clientID, filter)` adds a
subscription. -/
def registerSub (m : Matcher) (clientID : String) (filter : List String) : Matcher :=
  (clientID, filter) :: m

/-- Modelled from the spec: `match(topic)` returns the registered
subscriptions whose filter matches the topic. -/
def matchSubs (m : Matcher) (topic : List String) : List (String × List String) :=
  m.filter (fun p => matchTopic p.2 topic)

/-- Declarative MQTT wildcard semantics, following the spec's words: a filter
matches a topic when literals match their own segment exactly, `+` matches
exactly one segment, and `#` as the final filter level matches zero or more
trailing segments. -/
inductive MqttMatch : List String → List String → Prop
  | nil : MqttMatch [] []
  | hash (ts : List String) : MqttMatch ["#"] ts
  | plus (s : String) (fs ts : List String) :
      MqttMatch fs ts → MqttMatch ("+" :: fs) (s :: ts)
  | lit (s : String) (fs ts : List String) :
      s ≠ "+" → s ≠ "#" → MqttMatch fs ts → MqttMatch (s :: fs) (s :: ts)

/-- Declarative statement that topic T satisfies filter F under MQTT wildcard
semantics, including the exclusion of `$`-prefixed topics from filters that
begin with a wildcard. -/
def MqttSatisfies (filter topic : List String) : Prop :=
  MqttMatch filter topic ∧
    ¬((filter.head? = some "#" ∨ filter.head? = some "+") ∧ topicIsSys topic = true)

/- ----------------------------------------------------------------
   QoS2 receiver state machine (spec sections 3 and 4.3)
   ---------------------------------------------------------------- -/

/-- Modelled from the spec: the QoS2 receiver's per-connection state, the
dedupe set of packet ids in state awaiting-PUBREL. -/
structure Qos2Receiver where
  awaitingRel : List Nat
  deriving DecidableEq, Repr

/-- Modelled from the spec: events seen by the QoS2 receiver of one
connection — an (possibly retransmitted) inbound PUBLISH or an inbound
PUBREL, each carrying a packet id. -/
inductive Qos2Event
  | publish (pid : Nat)
  | pubrel (pid : Nat)
  deriving DecidableEq, Repr

/-- Modelled from the spec: handling a QoS2 PUBLISH.  A packet id already in
the awaiting-PUBREL dedupe set is a sender retransmission and is not
delivered again; otherwise the id enters the dedupe set and the message is
delivered locally.  Returns the new state and the list of local deliveries
(the packet ids delivered). -/
def recvPublish (r : Qos2Receiver) (pid : Nat) : Qos2Receiver × List Nat :=
  if pid ∈ r.awaitingRel then (r, [])
  else ({ awaitingRel := pid :: r.awaitingRel }, [pid])

/-- Modelled from the spec: handling PUBREL releases the packet id from the
awaiting-PUBREL dedupe set (completing the four-step handshake). -/
def recvPubrel (r : Qos2Receiver) (pid : Nat) : Qos2Receiver :=
  { awaitingRel := r.awaitingRel.erase pid }

/-- Modelled from the spec: one step of the QoS2 receiver state machine. -/
def qos2Step (r : Qos2Receiver) : Qos2Event → Qos2Receiver × List Nat
  | Qos2Event.publish pid => recvPublish r pid
  | Qos2Event.pubrel pid => (recvPubrel r pid, [])

/-- Modelled from the spec: running the receiver over a trace of events,
collecting all local deliveries in order. -/
def qos2Run (r : Qos2Receiver) : List Qos2Event → Qos2Receiver × List Nat
  | [] => (r, [])
  | e :: es =>
    let (r1, d1) := qos2Step r e
    let (r2, d2) := qos2Run r1 es
    (r2, d1 ++ d2)

/- ----------------------------------------------------------------
   Retained Message Store (spec section 4.4)
   ---------------------------------------------------------------- -/

/-- Modelled from the spec: the Retained Message Store keeps at most one live
entry per topic; topics are segment lists, payloads strings. -/
abbrev RetainedStore := List (List String × String)

/-- Modelled from the spec: `set(topic, payload)` — an empty payload deletes
the retained entry for the topic, a non-empty payload atomically replaces
it. -/
def RetainedStore.set (s : RetainedStore) (topic : List String) (payload : String) :
    RetainedStore :=
  if payload = "" then s.filter (fun e => e.1 ≠ topic)
  else (topic, payload) :: s.filter (fun e => e.1 ≠ topic)

/-- Retained entries stored for one topic. -/
def RetainedStore.entriesFor (s : RetainedStore) (topic : List String) :
    List (List String × String) :=
  s.filter (fun e => e.1 = topic)

/-- Modelled from the spec: the retained deliveries a new subscription with
the given filter receives — one delivery per retained entry whose topic
matches the filter. -/
def RetainedStore.retainedDeliveries (s : RetainedStore) (filter : List String) :
    List (List String × String) :=
  s.filter (fun e => matchTopic filter e.1)

/- ----------------------------------------------------------------
   Session Store persistence round trip (spec sections 3, 4.2, 6)
   ---------------------------------------------------------------- -/

/-- Modelled from the spec: a message (topic, payload, QoS). -/
structure Message where
  topic : List String
  payload : String
  qos : Nat
  deriving DecidableEq, Repr

/-- Modelled from the spec: a SubscriptionEntry — topic filter, granted QoS,
subscription identifier, retain-as-published flag, no-local flag. -/
structure SubscriptionEntry where
  filter : List String
  qos : Nat
  subID : Nat
  retainAsPublished : Bool
  noLocal : Bool
  deriving DecidableEq, Repr

/-- Modelled from the spec: a ClientSession — client identifier,
sessionPresent flag, subscriptions, ordered in-flight outgoing queue,
incoming packet-id dedupe set, optional will message, expiry deadline
(none while connected), clean-start flag. -/
structure Session where
  clientID : String
  sessionPresent : Bool
  subscriptions : List SubscriptionEntry
  inflightQueue : List Message
  dedupe : List Nat
  will : Option Message
  expiryAt : Option Nat
  cleanStart : Bool
  deriving DecidableEq, Repr

/-- Modelled from the spec: a session is expired when its expiry deadline has
elapsed while disconnected. -/
def Session.expired (s : Session) (now : Nat) : Bool :=
  match s.expiryAt with
  | none => false
  | some t => t ≤ now

/-- Modelled from the spec: the persistence backend's session table, keyed by
client identifier. -/
abbrev SessionStore := List (String × Session)

/-- Modelled from the spec: `storeSession` commits the session under its
client identifier, replacing any previous entry. -/
def storeSession (st : SessionStore) (s : Session) : SessionStore :=
  (s.clientID, s) :: st.filter (fun e => e.1 ≠ s.clientID)

/-- Modelled from the spec: `loadSession` returns the stored session for the
client identifier, unless it has expired. -/
def loadSession (st : SessionStore) (clientID : String) (now : Nat) : Option Session :=
  match st.lookup clientID with
  | none => none
  | some s => if s.expired now then none else some s

/- ----------------------------------------------------------------
   QoS Flow Controller packet-id allocation (spec sections 3 and 4.3)
   ---------------------------------------------------------------- -/

/-- Modelled from the spec: the packet-id space is bounded (MQTT packet ids
are 1..65535). -/
def maxPacketID : Nat := 65535

/-- Modelled from the spec: per-connection, per-direction flow state — the
packet ids of in-flight messages and the next id of the monotonic
wraparound allocator. -/
structure FlowState where
  inflight : List Nat
  nextID : Nat
  deriving DecidableEq, Repr

/-- Candidate ids in allocation order: starting at `next`, increasing, and
wrapping around from 65535 back to 1, covering the whole id space once. -/
def idCandidates (next : Nat) : List Nat :=
  (List.range maxPacketID).map (fun i => (next - 1 + i) % maxPacketID + 1)

/-- Modelled from the spec: packet-id allocation is monotonic with
wraparound, skipping ids still outstanding; when every id is outstanding the
allocation fails (`none`), blocking new QoS1/2 sends until an id frees. -/
def allocID (st : FlowState) : Option (Nat × FlowState) :=
  match (idCandidates st.nextID).find? (fun pid => !st.inflight.contains pid) with
  | none => none
  | some pid => some (pid, { inflight := pid :: st.inflight, nextID := pid % maxPacketID + 1 })

/-- Modelled from the spec: a packet id is released once its message is fully
acknowledged (PUBACK for QoS1, PUBCOMP for QoS2), making it reusable. -/
def releaseID (st : FlowState) (pid : Nat) : FlowState :=
  { inflight := st.inflight.erase pid, nextID := st.nextID }

/- ----------------------------------------------------------------
   Concrete values used by witnesses and counterexamples
   ---------------------------------------------------------------- -/

/-- Wildcard-free filters: every level differs from `+` and `#`; such a
filter matches exactly its own topic. -/
def literalFilter (F : List String) : Bool :=
  F.all (fun f => !(f == "+") && !(f == "#"))

/-- Concrete file-reading oracle: every file reads successfully with empty
contents. -/
def readFileOK : String → Except String String :=
  fun _ => Except.ok ""

/-- Concrete unmarshal oracle: sets an invalid log level and succeeds. -/
def unmarshalBadLevel : String → Config → Config × Option String :=
  fun _ c => ({ c with log := { level := "bad", format := "text", dumpPacket := false } }, none)

/-- Concrete path.Dir oracle. -/
def pathDirDot : String → String :=
  fun _ => "."

/-- The config produced by `unmarshalBadLevel` from the defaults. -/
def badLevelConfig : Config :=
  { DefaultConfig [] with log := { level := "bad", format := "text", dumpPacket := false } }

/-- Environment in which every external step of run() succeeds. -/
def noErrEnv : RunEnv :=
  { pidErr := none, listenersErr := none, loggerErr := none, initErr := none, runErr := none }

/-- Concrete session used as a round-trip witness. -/
def sampleSession : Session :=
  { clientID := "client-1"
    sessionPresent := true
    subscriptions := [{ filter := ["a", "b"], qos := 1, subID := 1,
                        retainAsPublished := false, noLocal := false }]
    inflightQueue := [{ topic := ["a", "b"], payload := "m1", qos := 1 }]
    dedupe := [3]
    will := some { topic := ["w"], payload := "bye", qos := 0 }
    expiryAt := some 100
    cleanStart := false }

/- ----------------------------------------------------------------
   Lemmas about the matching walk
   ---------------------------------------------------------------- -/

theorem cleanSegment_ne_hash {f : String} (h : cleanSegment f = true) : f ≠ "#" := by
  intro hf
  subst hf
  exact absurd h (by decide)

theorem cleanSegment_ne_plus {f : String} (h : cleanSegment f = true) : f ≠ "+" := by
  intro hf
  subst hf
  exact absurd h (by decide)

theorem mqttMatch_of_walkMatch :
    ∀ F T : List String, validFilter F = true → walkMatch F T = true → MqttMatch F T := by
  intro F
  induction F with
  | nil =>
    intro T hv hw
    cases T with
    | nil => exact MqttMatch.nil
    | cons t ts => simp [walkMatch] at hw
  | cons f fs ih =>
    intro T hv hw
    by_cases hhash : f = "#" ∧ fs = []
    · obtain ⟨rfl, rfl⟩ := hhash
      exact MqttMatch.hash T
    · simp only [validFilter] at hv
      rw [if_neg hhash] at hv
      cases T with
      | nil =>
        simp only [walkMatch] at hw
        rw [if_neg hhash] at hw
        exact absurd hw (by simp)
      | cons t ts =>
        simp only [walkMatch] at hw
        rw [if_neg hhash] at hw
        simp only [Bool.and_eq_true, Bool.or_eq_true, beq_iff_eq] at hw hv
        obtain ⟨hft, hrest⟩ := hw
        by_cases hplus : f = "+"
        · subst hplus
          exact MqttMatch.plus t fs ts (ih ts hv.2 hrest)
        · have hclean : cleanSegment f = true := by
            rcases hv.1 with h1 | h1
            · exact absurd h1 hplus
            · exact h1
          have hft2 : f = t := by
            rcases hft with h1 | h1
            · exact absurd h1 hplus
            · exact h1
          subst hft2
          exact MqttMatch.lit f fs ts hplus (cleanSegment_ne_hash hclean) (ih ts hv.2 hrest)

theorem walkMatch_of_mqttMatch {F T : List String} (h : MqttMatch F T) :
    walkMatch F T = true := by
  induction h with
  | nil => rfl
  | hash ts => simp [walkMatch]
  | plus s fs ts _ ih =>
    have hne : ¬(("+" : String) = "#" ∧ fs = []) := by
      rintro ⟨h1, -⟩
      exact absurd h1 (by decide)
    simp only [walkMatch]
    rw [if_neg hne]
    simp [ih]
  | lit s fs ts hp hh _ ih =>
    have hne : ¬(s = "#" ∧ fs = []) := by
      rintro ⟨h1, -⟩
      exact hh h1
    simp only [walkMatch]
    rw [if_neg hne]
    simp [ih]

theorem matchTopic_iff_mqttSatisfies (F T : List String) (hv : validFilter F = true) :
    matchTopic F T = true ↔ MqttSatisfies F T := by
  unfold matchTopic MqttSatisfies
  by_cases hsys : ((F.head? == some "#" || F.head? == some "+") && topicIsSys T) = true
  · rw [if_pos hsys]
    simp only [Bool.and_eq_true, Bool.or_eq_true, beq_iff_eq] at hsys
    constructor
    · intro h
      exact absurd h (by simp)
    · rintro ⟨-, hno⟩
      exact absurd ⟨hsys.1, hsys.2⟩ hno
  · rw [if_neg hsys]
    simp only [Bool.and_eq_true, Bool.or_eq_true, beq_iff_eq] at hsys
    push_neg at hsys
    constructor
    · intro h
      refine ⟨mqttMatch_of_walkMatch F T hv h, ?_⟩
      rintro ⟨h1, h2⟩
      exact absurd h2 (hsys h1)
    · rintro ⟨h1, -⟩
      exact walkMatch_of_mqttMatch h1

/-- C1: for every subscription (c, F) registered in the Topic Matcher with a
well-formed filter F and every topic T, `match(T)` contains the subscriber of
F if and only if T satisfies MQTT wildcard semantics — `+` matches exactly
one segment, `#` matches zero or more trailing segments and is valid only as
the final filter level, and topics whose first segment starts with `$` are
excluded from filters beginning with `+` or `#`. -/
theorem match_iff_wildcard_semantics (m : Matcher) (c : String) (F T : List String)
    (hv : validFilter F = true) (hreg : (c, F) ∈ m) :
    ((c, F) ∈ matchSubs m T) ↔ MqttSatisfies F T := by
  unfold matchSubs
  rw [List.mem_filter]
  constructor
  · rintro ⟨-, h⟩
    exact (matchTopic_iff_mqttSatisfies F T hv).mp h
  · intro h
    exact ⟨hreg, (matchTopic_iff_mqttSatisfies F T hv).mpr h⟩

/-- Witness for C1 at a concrete subscription and topic: the filter
`sensors/+/temp` is valid, is registered, and its match of topic
`sensors/room1/temp` coincides with the declarative wildcard semantics. -/
theorem match_iff_wildcard_semantics_witness :
    validFilter ["sensors", "+", "temp"] = true ∧
    ("c1", ["sensors", "+", "temp"]) ∈
      (registerSub [] "c1" ["sensors", "+", "temp"] : Matcher) ∧
    ((("c1", ["sensors", "+", "temp"]) ∈
        matchSubs (registerSub [] "c1" ["sensors", "+", "temp"]) ["sensors", "room1", "temp"]) ↔
      MqttSatisfies ["sensors", "+", "temp"] ["sensors", "room1", "temp"]) :=
  ⟨by decide, by simp [registerSub],
    match_iff_wildcard_semantics _ _ _ _ (by decide) (by simp [registerSub])⟩

/- ----------------------------------------------------------------
   Configuration claims
   ---------------------------------------------------------------- -/

/-- C8: calling ParseConfig with the empty string as file path returns
exactly DefaultConfig() and a nil error, performing no file read and no
validation (the effect list is empty), and the result's ConfigDir field is
empty. -/
theorem parseConfig_empty_path (reg : Registry) (readFile : String → Except String String)
    (unmarshal : String → Config → Config × Option String) (pathDir : String → String) :
    ParseConfig reg readFile unmarshal pathDir "" = ((DefaultConfig reg, none), []) ∧
    (DefaultConfig reg).configDir = "" :=
  ⟨rfl, rfl⟩

/-- C9: for every non-empty file path whose contents read and unmarshal
successfully, if the resulting configuration (with ConfigDir set) fails
Config.Validate, then ParseConfig returns the zero-valued Config together
with the validation error, never the partially populated configuration. -/
theorem parseConfig_validate_failure (reg : Registry)
    (readFile : String → Except String String)
    (unmarshal : String → Config → Config × Option String)
    (pathDir : String → String) (filePath b : String) (c1 : Config) (e : String)
    (hfp : filePath ≠ "")
    (hread : readFile filePath = Except.ok b)
    (hun : unmarshal b (DefaultConfig reg) = (c1, none))
    (hval : Config.Validate { c1 with configDir := pathDir filePath } = some e) :
    ParseConfig reg readFile unmarshal pathDir filePath =
      ((zeroConfig, some e),
        [ParseEffect.readFile filePath, ParseEffect.unmarshal, ParseEffect.validate]) := by
  unfold ParseConfig
  rw [if_neg hfp, hread]
  simp only [hun, hval]

/-- Witness for C9: with a configuration file that unmarshals to an invalid
log level, ParseConfig returns the zero config and the validation error. -/
theorem parseConfig_validate_failure_witness :
    ("config.yml" : String) ≠ "" ∧
    readFileOK "config.yml" = Except.ok "" ∧
    unmarshalBadLevel "" (DefaultConfig []) = (badLevelConfig, none) ∧
    Config.Validate { badLevelConfig with configDir := pathDirDot "config.yml" } =
      some "invalid log level: bad" ∧
    ParseConfig [] readFileOK unmarshalBadLevel pathDirDot "config.yml" =
      ((zeroConfig, some "invalid log level: bad"),
        [ParseEffect.readFile "config.yml", ParseEffect.unmarshal, ParseEffect.validate]) :=
  ⟨by decide, rfl, rfl, rfl,
    parseConfig_validate_failure [] readFileOK unmarshalBadLevel pathDirDot "config.yml" ""
      badLevelConfig "invalid log level: bad" (by decide) rfl rfl rfl⟩

theorem register_preserves_lookup (reg : Registry) (name : String) (config : PluginConf)
    (h : reg.lookup name = some config) (name2 : String) (config2 : PluginConf)
    (reg2 : Registry) (h2 : RegisterDefaultPluginConfig reg name2 config2 = Except.ok reg2) :
    reg2.lookup name = some config := by
  unfold RegisterDefaultPluginConfig at h2
  by_cases hs : (reg.lookup name2).isSome = true
  · rw [if_pos hs] at h2
    exact Except.noConfusion h2
  · rw [if_neg hs] at h2
    have hreg2 : reg2 = (name2, config2) :: reg := by
      cases h2
      rfl
    subst hreg2
    have hne : (name == name2) = false := by
      cases hbe : (name == name2) with
      | false => rfl
      | true =>
        have heq : name = name2 := beq_iff_eq.mp hbe
        subst heq
        rw [h] at hs
        exact absurd rfl hs
    simp only [List.lookup, hne]
    exact h

theorem registerMany_preserves_lookup (name : String) (config : PluginConf) :
    ∀ (later : List (String × PluginConf)) (reg reg3 : Registry),
      reg.lookup name = some config → registerMany reg later = Except.ok reg3 →
      reg3.lookup name = some config := by
  intro later
  induction later with
  | nil =>
    intro reg reg3 h hm
    unfold registerMany at hm
    cases hm
    exact h
  | cons p rest ih =>
    obtain ⟨n, c⟩ := p
    intro reg reg3 h hm
    unfold registerMany at hm
    cases h2 : RegisterDefaultPluginConfig reg n c with
    | error e =>
      rw [h2] at hm
      exact Except.noConfusion hm
    | ok regMid =>
      rw [h2] at hm
      exact ih regMid reg3 (register_preserves_lookup reg name config h n c regMid h2) hm

/-- C10: RegisterDefaultPluginConfig panics exactly when a default config for
that plugin name is already registered; a first call for a name records the
config, and every subsequent DefaultConfig() result — after any number of
further successful registrations of other plugins — contains it under
Plugins[name]. -/
theorem registerDefaultPluginConfig_spec (reg : Registry) (name : String)
    (config : PluginConf) :
    ((∃ e, RegisterDefaultPluginConfig reg name config = Except.error e) ↔
      (reg.lookup name).isSome = true) ∧
    (∀ reg2, RegisterDefaultPluginConfig reg name config = Except.ok reg2 →
      (DefaultConfig reg2).plugins.lookup name = some config ∧
      ∀ later reg3, registerMany reg2 later = Except.ok reg3 →
        (DefaultConfig reg3).plugins.lookup name = some config) := by
  constructor
  · constructor
    · rintro ⟨e, he⟩
      by_contra hns
      unfold RegisterDefaultPluginConfig at he
      rw [if_neg hns] at he
      exact Except.noConfusion he
    · intro hs
      refine ⟨"duplicated default config for " ++ name ++ " plugin", ?_⟩
      unfold RegisterDefaultPluginConfig
      rw [if_pos hs]
  · intro reg2 h2
    unfold RegisterDefaultPluginConfig at h2
    by_cases hs : (reg.lookup name).isSome = true
    · rw [if_pos hs] at h2
      exact Except.noConfusion h2
    · rw [if_neg hs] at h2
      have hreg2 : reg2 = (name, config) :: reg := by
        cases h2
        rfl
      subst hreg2
      have hlook : ((name, config) :: reg).lookup name = some config := by
        simp [List.lookup]
      refine ⟨hlook, ?_⟩
      intro later reg3 hm
      exact registerMany_preserves_lookup name config later _ reg3 hlook hm

/-- Witness for C10: registering "prometheus" in the empty registry does not
panic, and DefaultConfig() carries it under Plugins["prometheus"] after any
chain of further successful registrations. -/
theorem registerDefaultPluginConfig_spec_witness :
    ((∃ e, RegisterDefaultPluginConfig [] "prometheus" { tag := "prom", validateErr := none } =
        Except.error e) ↔
      (([] : Registry).lookup "prometheus").isSome = true) ∧
    (∀ reg2,
      RegisterDefaultPluginConfig [] "prometheus" { tag := "prom", validateErr := none } =
        Except.ok reg2 →
      (DefaultConfig reg2).plugins.lookup "prometheus" =
        some { tag := "prom", validateErr := none } ∧
      ∀ later reg3, registerMany reg2 later = Except.ok reg3 →
        (DefaultConfig reg3).plugins.lookup "prometheus" =
          some { tag := "prom", validateErr := none }) :=
  registerDefaultPluginConfig_spec [] "prometheus" { tag := "prom", validateErr := none }

/- ----------------------------------------------------------------
   Broker startup error handling (C6)
   ---------------------------------------------------------------- -/

/-- C6 counterexample: an invalid log level in the configuration file — a
startup error that is not persistence unreachability — makes run() terminate
the broker process with exit code 1 through must(), contradicting the claim
that every non-persistence startup error leaves the broker running. -/
theorem run_config_error_exits :
    (ParseConfig [] readFileOK unmarshalBadLevel pathDirDot "config.yml").1.2 =
      some "invalid log level: bad" ∧
    run (ParseConfig [] readFileOK unmarshalBadLevel pathDirDot "config.yml").1 noErrEnv =
      RunOutcome.exited 1 :=
  ⟨rfl, rfl⟩

/-- C6 (amended): run() keeps the broker running exactly when every startup
step succeeds; any startup error — config parse or validation failure,
pid-file failure when a pid file is configured, listener/TLS setup failure,
logger failure, or a server Init/Run failure — terminates the process with
exit code 1, with no special treatment of persistence errors. -/
theorem run_exits_on_any_startup_error (parse : Config × Option String) (env : RunEnv) :
    (run parse env = RunOutcome.running ↔
      (parse.2 = none ∧ (parse.1.pidFile ≠ "" → env.pidErr = none) ∧
        env.listenersErr = none ∧ env.loggerErr = none ∧
        env.initErr = none ∧ env.runErr = none)) ∧
    (run parse env = RunOutcome.running ∨ run parse env = RunOutcome.exited 1) := by
  obtain ⟨c, perr⟩ := parse
  obtain ⟨pe, le, ge, ie, re⟩ := env
  cases perr <;> cases pe <;> cases le <;> cases ge <;> cases ie <;> cases re <;>
    by_cases hpf : c.pidFile = "" <;>
      simp [run, must, hpf]

/- ----------------------------------------------------------------
   QoS2 receiver claims (C2)
   ---------------------------------------------------------------- -/

theorem qos2_count_zero_of_mem (pid : Nat) :
    ∀ (evs : List Qos2Event) (r : Qos2Receiver), pid ∈ r.awaitingRel →
      Qos2Event.pubrel pid ∉ evs → ((qos2Run r evs).2.count pid) = 0 := by
  intro evs
  induction evs with
  | nil =>
    intro r hmem hno
    simp [qos2Run]
  | cons e es ih =>
    intro r hmem hno
    have hno2 : Qos2Event.pubrel pid ∉ es := fun h => hno (List.mem_cons_of_mem _ h)
    cases e with
    | publish p =>
      by_cases hp : p ∈ r.awaitingRel
      · simp only [qos2Run, qos2Step, recvPublish, if_pos hp]
        simpa using ih r hmem hno2
      · have hne : p ≠ pid := fun h => hp (h ▸ hmem)
        simp only [qos2Run, qos2Step, recvPublish, if_neg hp]
        have hmem2 : pid ∈ (Qos2Receiver.mk (p :: r.awaitingRel)).awaitingRel :=
          List.mem_cons_of_mem _ hmem
        have h0 := ih _ hmem2 hno2
        simp [List.count_cons, h0, hne]
    | pubrel p =>
      have hne : p ≠ pid := by
        intro h
        subst h
        exact hno (List.mem_cons_self _ _)
      have hmem2 : pid ∈ (recvPubrel r p).awaitingRel := by
        unfold recvPubrel
        exact (List.mem_erase_of_ne (fun h => hne h.symm)).mpr hmem
      simp only [qos2Run, qos2Step]
      simpa using ih _ hmem2 hno2

/-- C2: in the QoS2 receiver state machine, a PUBLISH whose packet id is
already in the awaiting-PUBREL dedupe set is not delivered again, and over
any event trace that contains no PUBREL for the packet id — no matter how
many times the sender retransmits the PUBLISH — the message is locally
delivered at most once. -/
theorem qos2_duplicate_publish_at_most_once (r : Qos2Receiver) (pid : Nat)
    (evs : List Qos2Event) (hno : Qos2Event.pubrel pid ∉ evs) :
    (pid ∈ r.awaitingRel → recvPublish r pid = (r, [])) ∧
    ((qos2Run r evs).2.count pid) ≤ 1 := by
  refine ⟨fun h => by simp [recvPublish, h], ?_⟩
  revert hno
  induction evs generalizing r with
  | nil =>
    intro hno
    simp [qos2Run]
  | cons e es ih =>
    intro hno
    have hno2 : Qos2Event.pubrel pid ∉ es := fun h => hno (List.mem_cons_of_mem _ h)
    cases e with
    | publish p =>
      by_cases hp : p ∈ r.awaitingRel
      · simp only [qos2Run, qos2Step, recvPublish, if_pos hp]
        simpa using ih r hno2
      · simp only [qos2Run, qos2Step, recvPublish, if_neg hp]
        by_cases hpe : p = pid
        · subst hpe
          have hmem : p ∈ (Qos2Receiver.mk (p :: r.awaitingRel)).awaitingRel :=
            List.mem_cons_self _ _
          have h0 := qos2_count_zero_of_mem p es _ hmem hno2
          simp [List.count_cons, h0]
        · have hrest := ih (Qos2Receiver.mk (p :: r.awaitingRel)) hno2
          simpa [List.count_cons, hpe] using hrest
    | pubrel p =>
      simp only [qos2Run, qos2Step]
      simpa using ih (recvPubrel r p) hno2

/-- Witness for C2: three retransmissions of PUBLISH with packet id 7 and no
PUBREL deliver the message exactly once (at most once). -/
theorem qos2_duplicate_publish_at_most_once_witness :
    Qos2Event.pubrel 7 ∉
      [Qos2Event.publish 7, Qos2Event.publish 7, Qos2Event.publish 7] ∧
    ((7 ∈ (Qos2Receiver.mk []).awaitingRel →
        recvPublish (Qos2Receiver.mk []) 7 = (Qos2Receiver.mk [], [])) ∧
      ((qos2Run (Qos2Receiver.mk [])
          [Qos2Event.publish 7, Qos2Event.publish 7, Qos2Event.publish 7]).2.count 7) ≤ 1) :=
  ⟨by decide,
    qos2_duplicate_publish_at_most_once (Qos2Receiver.mk []) 7
      [Qos2Event.publish 7, Qos2Event.publish 7, Qos2Event.publish 7] (by decide)⟩

/- ----------------------------------------------------------------
   Retained Message Store claims (C3)
   ---------------------------------------------------------------- -/

theorem walkMatch_literal :
    ∀ F T : List String, literalFilter F = true → (walkMatch F T = true ↔ T = F) := by
  intro F
  induction F with
  | nil =>
    intro T h
    cases T <;> simp [walkMatch]
  | cons f fs ih =>
    intro T h
    simp only [literalFilter, List.all_cons, Bool.and_eq_true, Bool.not_eq_true',
      beq_eq_false_iff_ne] at h
    obtain ⟨⟨hfp, hfh⟩, hfs⟩ := h
    have hnh : ¬(f = "#" ∧ fs = []) := fun hc => hfh hc.1
    cases T with
    | nil =>
      simp only [walkMatch]
      rw [if_neg hnh]
      simp
    | cons t ts =>
      simp only [walkMatch]
      rw [if_neg hnh]
      have hplus : (f == "+") = false := beq_eq_false_iff_ne.mpr hfp
      have hih := ih ts hfs
      simp only [hplus, Bool.false_or, Bool.and_eq_true, beq_iff_eq, hih,
        List.cons.injEq]
      constructor
      · rintro ⟨h1, h2⟩
        exact ⟨h1.symm, h2⟩
      · rintro ⟨h1, h2⟩
        exact ⟨h1.symm, h2⟩

theorem matchTopic_literal (F T : List String) (h : literalFilter F = true) :
    matchTopic F T = true ↔ T = F := by
  unfold matchTopic
  have hcond : ((F.head? == some "#" || F.head? == some "+") && topicIsSys T) = false := by
    cases F with
    | nil => rfl
    | cons f fs =>
      simp only [literalFilter, List.all_cons, Bool.and_eq_true, Bool.not_eq_true',
        beq_eq_false_iff_ne] at h
      obtain ⟨⟨hfp, hfh⟩, -⟩ := h
      simp [List.head?, hfp, hfh]
  rw [hcond]
  simp only [Bool.false_eq_true, if_false]
  exact walkMatch_literal F T h

/-- C3: set(topic, payload) with a non-empty payload atomically replaces the
single retained entry for that topic and set with an empty payload deletes
it; consequently a new subscription with the same (wildcard-free) filter
receives exactly one retained delivery after the non-empty set and none after
the empty set. -/
theorem retained_store_set_spec (s : RetainedStore) (t : List String) (p : String)
    (hp : p ≠ "") (hlit : literalFilter t = true) :
    RetainedStore.entriesFor (RetainedStore.set s t p) t = [(t, p)] ∧
    RetainedStore.entriesFor (RetainedStore.set s t "") t = [] ∧
    RetainedStore.retainedDeliveries (RetainedStore.set s t p) t = [(t, p)] ∧
    RetainedStore.retainedDeliveries (RetainedStore.set s t "") t = [] := by
  have hsetp : RetainedStore.set s t p = (t, p) :: s.filter (fun e => e.1 ≠ t) := by
    unfold RetainedStore.set
    rw [if_neg hp]
  have hsete : RetainedStore.set s t "" = s.filter (fun e => e.1 ≠ t) := by
    unfold RetainedStore.set
    rw [if_pos rfl]
  have hsub : ∀ e, e ∈ s.filter (fun e => e.1 ≠ t) → e.1 ≠ t := by
    intro e he
    have := List.of_mem_filter he
    simpa using this
  refine ⟨?_, ?_, ?_, ?_⟩
  · rw [hsetp]
    unfold RetainedStore.entriesFor
    have hnil : (s.filter (fun e => e.1 ≠ t)).filter (fun e => e.1 = t) = [] := by
      rw [List.filter_eq_nil_iff]
      intro e he
      simpa using hsub e he
    simp [List.filter_cons, hnil]
  · rw [hsete]
    unfold RetainedStore.entriesFor
    rw [List.filter_eq_nil_iff]
    intro e he
    simpa using hsub e he
  · rw [hsetp]
    unfold RetainedStore.retainedDeliveries
    have hmt : matchTopic t t = true := (matchTopic_literal t t hlit).mpr rfl
    have hnil : (s.filter (fun e => e.1 ≠ t)).filter (fun e => matchTopic t e.1) = [] := by
      rw [List.filter_eq_nil_iff]
      intro e he hm
      exact hsub e he ((matchTopic_literal t e.1 hlit).mp (by simpa using hm))
    rw [List.filter_cons]
    simp only [hmt, if_true, hnil]
  · rw [hsete]
    unfold RetainedStore.retainedDeliveries
    rw [List.filter_eq_nil_iff]
    intro e he hm
    exact hsub e he ((matchTopic_literal t e.1 hlit).mp (by simpa using hm))

/-- Witness for C3 at topic a/b over a store already holding entries for a/b
and c. -/
theorem retained_store_set_spec_witness :
    ("new" : String) ≠ "" ∧ literalFilter ["a", "b"] = true ∧
    (RetainedStore.entriesFor
        (RetainedStore.set [(["a", "b"], "old"), (["c"], "x")] ["a", "b"] "new") ["a", "b"] =
      [(["a", "b"], "new")] ∧
    RetainedStore.entriesFor
        (RetainedStore.set [(["a", "b"], "old"), (["c"], "x")] ["a", "b"] "") ["a", "b"] = [] ∧
    RetainedStore.retainedDeliveries
        (RetainedStore.set [(["a", "b"], "old"), (["c"], "x")] ["a", "b"] "new") ["a", "b"] =
      [(["a", "b"], "new")] ∧
    RetainedStore.retainedDeliveries
        (RetainedStore.set [(["a", "b"], "old"), (["c"], "x")] ["a", "b"] "") ["a", "b"] = []) :=
  ⟨by decide, by decide,
    retained_store_set_spec [(["a", "b"], "old"), (["c"], "x")] ["a", "b"] "new"
      (by decide) (by decide)⟩

/- ----------------------------------------------------------------
   Session Store round trip (C4)
   ---------------------------------------------------------------- -/

/-- C4: for every non-expired session, storeSession followed by loadSession
of the same client identifier returns the very same session, in particular
preserving its subscription set, its undelivered in-flight queue, and its
will message. -/
theorem store_load_roundtrip (st : SessionStore) (s : Session) (now : Nat)
    (h : s.expired now = false) :
    loadSession (storeSession st s) s.clientID now = some s ∧
    (loadSession (storeSession st s) s.clientID now).map Session.subscriptions =
      some s.subscriptions ∧
    (loadSession (storeSession st s) s.clientID now).map Session.inflightQueue =
      some s.inflightQueue ∧
    (loadSession (storeSession st s) s.clientID now).map Session.will = some s.will := by
  have h1 : loadSession (storeSession st s) s.clientID now = some s := by
    unfold loadSession storeSession
    simp [List.lookup, h]
  exact ⟨h1, by rw [h1]; rfl, by rw [h1]; rfl, by rw [h1]; rfl⟩

/-- Witness for C4: round trip of a concrete non-expired session through an
empty store. -/
theorem store_load_roundtrip_witness :
    sampleSession.expired 5 = false ∧
    (loadSession (storeSession [] sampleSession) sampleSession.clientID 5 =
        some sampleSession ∧
      (loadSession (storeSession [] sampleSession) sampleSession.clientID 5).map
          Session.subscriptions = some sampleSession.subscriptions ∧
      (loadSession (storeSession [] sampleSession) sampleSession.clientID 5).map
          Session.inflightQueue = some sampleSession.inflightQueue ∧
      (loadSession (storeSession [] sampleSession) sampleSession.clientID 5).map
          Session.will = some sampleSession.will) :=
  ⟨by decide, store_load_roundtrip [] sampleSession 5 (by decide)⟩

/- ----------------------------------------------------------------
   Packet-id allocation invariant (C5)
   ---------------------------------------------------------------- -/

/-- C5: the QoS Flow Controller's in-flight packet ids stay pairwise distinct
under every operation — allocation returns an id that is not currently in
flight (an id is reusable only after release) and keeps the in-flight list
duplicate-free, and release preserves distinctness as well. -/
theorem packet_id_unique (st : FlowState) (h : st.inflight.Nodup) :
    (∀ pid st2, allocID st = some (pid, st2) →
      pid ∉ st.inflight ∧ st2.inflight = pid :: st.inflight ∧ st2.inflight.Nodup) ∧
    (∀ pid, ((releaseID st pid).inflight).Nodup) := by
  constructor
  · intro pid st2 halloc
    unfold allocID at halloc
    cases hf : (idCandidates st.nextID).find? (fun q => !st.inflight.contains q) with
    | none =>
      rw [hf] at halloc
      exact Option.noConfusion halloc
    | some q =>
      rw [hf] at halloc
      have hq := List.find?_some hf
      have hqmem : q ∉ st.inflight := by
        simpa using hq
      simp only [Option.some.injEq, Prod.mk.injEq] at halloc
      obtain ⟨rfl, rfl⟩ := halloc
      exact ⟨hqmem, rfl, List.nodup_cons.mpr ⟨hqmem, h⟩⟩
  · intro pid
    exact h.erase pid

/-- Witness for C5 from the initial flow state: allocation from an empty
in-flight list yields a fresh id and keeps the invariant. -/
theorem packet_id_unique_witness :
    (FlowState.mk [] 1).inflight.Nodup ∧
    ((∀ pid st2, allocID (FlowState.mk [] 1) = some (pid, st2) →
        pid ∉ (FlowState.mk [] 1).inflight ∧
        st2.inflight = pid :: (FlowState.mk [] 1).inflight ∧ st2.inflight.Nodup) ∧
      (∀ pid, ((releaseID (FlowState.mk [] 1) pid).inflight).Nodup)) :=
  ⟨by decide, packet_id_unique (FlowState.mk [] 1) (by decide)⟩

end Gmqtt
